import Mathlib

/-!
Shallow embedding of `src/postage_calculator.py` (a USPS postage calculator).
Rates and weights are modelled as exact rationals, matching the `Decimal`
arithmetic the source uses for rounding and extrapolation; dictionaries are
modelled as option-valued lookup functions.
-/

namespace PostageCalculator

/-- Embeds `CORRECT_FC_6OZ = False`: toggle for smoothing the First-Class 6 oz
seed value. The source ships with it off. -/
def CORRECT_FC_6OZ : Bool := false

/-- Embeds `MAX_FLAT_OZ = 12`: flats are extrapolated and supported 1..12 oz. -/
def MAX_FLAT_OZ : ℕ := 12

/-- Embeds `to_cents`: round to 2 decimals with `ROUND_HALF_UP` (ties away
from zero, as Python `decimal` does). -/
def to_cents (x : ℚ) : ℚ :=
  (((if 0 ≤ x then ⌊x * 100 + 1/2⌋ else -⌊(-x) * 100 + 1/2⌋ : ℤ) : ℚ)) / 100

/-- Embeds the extrapolation loop of `extend_flat_rates_to_12oz`: iteration
`oz` sets `out_dec[6 + k] = out_dec[6 + k - 1] + step`, reading the value just
written for the previous ounce; index `k` counts ounces above 6. -/
def extendLoopVal (tbl : ℕ → ℚ) (step : ℚ) : ℕ → ℚ
  | 0 => tbl 6
  | k + 1 => extendLoopVal tbl step k + step

/-- Value held in `out_dec` for key `oz` after the loop of
`extend_flat_rates_to_12oz`: seed entries at 1..6 are untouched, entries at
7..12 are written as previous entry plus `step`. -/
def out_dec_val (tbl : ℕ → ℚ) (step : ℚ) (oz : ℕ) : ℚ :=
  if oz ≤ 6 then tbl oz else extendLoopVal tbl step (oz - 6)

/-- Embeds `extend_flat_rates_to_12oz`: run the extrapolation loop, then round
every value (seed entries included) to cents. The dict's key set is handled at
the lookup sites (`FC_FLAT_EXTENDED`, `MM_FLAT_EXTENDED`). -/
def extend_flat_rates_to_12oz (tbl : ℕ → ℚ) (step : ℚ) : ℕ → ℚ :=
  fun oz => to_cents (out_dec_val tbl step oz)

/-- Embeds `rounded_ounces`: USPS bills flats by rounding up to the next whole
ounce. -/
def rounded_ounces (weight_oz : ℚ) : ℤ := ⌈weight_oz⌉

/-- Embeds the `FC_FLAT_SEED_1_TO_6` dict (keys 1.0..6.0). -/
def FC_FLAT_SEED_1_TO_6 : ℕ → ℚ
  | 1 => 1230/1000
  | 2 => 1505/1000
  | 3 => 1775/1000
  | 4 => 2045/1000
  | 5 => 2325/1000
  | 6 => if CORRECT_FC_6OZ then 2325/1000 + 280/1000 else 2305/1000
  | _ => 0

/-- Embeds the `MM_FLAT_SEED_1_TO_6` dict (keys 1.0..6.0). -/
def MM_FLAT_SEED_1_TO_6 : ℕ → ℚ
  | 1 => 986/1000
  | 2 => 986/1000
  | 3 => 986/1000
  | 4 => 986/1000
  | 5 => 1073/1000
  | 6 => 1119/1000
  | _ => 0

/-- Embeds `FC_STEP = Decimal("0.280")`. -/
def FC_STEP : ℚ := 280/1000

/-- Embeds `MM_STEP = Decimal("0.046")`. -/
def MM_STEP : ℚ := 46/1000

/-- Embeds `FC_FLAT_EXTENDED`, the extended dict with keys 1.0..12.0; `none`
models a missing dict key. -/
def FC_FLAT_EXTENDED (oz : ℕ) : Option ℚ :=
  if 1 ≤ oz ∧ oz ≤ MAX_FLAT_OZ then
    some (extend_flat_rates_to_12oz FC_FLAT_SEED_1_TO_6 FC_STEP oz)
  else none

/-- Embeds `MM_FLAT_EXTENDED`, the extended dict with keys 1.0..12.0. -/
def MM_FLAT_EXTENDED (oz : ℕ) : Option ℚ :=
  if 1 ≤ oz ∧ oz ≤ MAX_FLAT_OZ then
    some (extend_flat_rates_to_12oz MM_FLAT_SEED_1_TO_6 MM_STEP oz)
  else none

/-- Embeds the nested lookup `usps_rates["letter"][mail_class][mail_type]`:
`none` models the `KeyError` on an unknown mail class or mail type, the inner
function models the sortation-level dict (`.get` with default). -/
def LETTER_RATES (mail_class mail_type : String) : Option (String → Option ℚ) :=
  if mail_class = "First-Class Mail" then
    if mail_type = "automation" then
      some (fun sl =>
        if sl = "5-Digit" then some (593/1000)
        else if sl = "AADC" then some (641/1000)
        else if sl = "Mixed AADC" then some (672/1000)
        else none)
    else none
  else if mail_class = "Marketing Mail" then
    if mail_type = "automation" then
      some (fun sl =>
        if sl = "5-Digit" then some (372/1000)
        else if sl = "AADC" then some (407/1000)
        else if sl = "Mixed AADC" then some (433/1000)
        else none)
    else none
  else none

/-- Embeds the nested lookup `usps_rates["flat"][mail_class][mail_type]`:
`none` models the `KeyError` on an unknown mail class or mail type. -/
def flatTables (mail_class mail_type : String) : Option (ℕ → Option ℚ) :=
  if mail_class = "First-Class Mail" then
    if mail_type = "automation" then some FC_FLAT_EXTENDED else none
  else if mail_class = "Marketing Mail" then
    if mail_type = "automation" then some MM_FLAT_EXTENDED else none
  else none

/-- Result of a rate lookup: either a numeric rate or one of the source's
string outcomes ("N/A", "Rate not found", ...), which the UI layer treats
uniformly as a rate-not-found message. -/
inductive RateResult where
  | found : ℚ → RateResult
  | notFound : String → RateResult
  deriving DecidableEq, Repr

/-- Whether a `RateResult` is one of the not-found string outcomes. -/
def RateResult.isNotFound : RateResult → Bool
  | .found _ => false
  | .notFound _ => true

/-- Embeds Python `str.lower()`: lower-case every character. -/
def pyLower (s : String) : String :=
  String.mk (s.data.map Char.toLower)

/-- Embeds Python `str.strip()`: drop leading and trailing whitespace. -/
def pyStrip (s : String) : String :=
  String.mk (((s.data.dropWhile Char.isWhitespace).reverse.dropWhile
    Char.isWhitespace).reverse)

/-- Embeds Python `str.capitalize()`: upper-case the first character,
lower-case the rest. -/
def pyCapitalize (s : String) : String :=
  match s.data with
  | [] => ""
  | c :: cs => String.mk (c.toUpper :: cs.map Char.toLower)

/-- Letter branch of `calculate_postage`: look up the class/type dict (a
`KeyError` there is caught as "Rate not found"), then `.get(sortation_level,
"N/A")`. -/
def letterRate (mc mt : String) (sl : Option String) : RateResult :=
  match LETTER_RATES mc mt with
  | none => .notFound "Rate not found"
  | some sortMap =>
    match sl with
    | none => .notFound "N/A"
    | some s =>
      match sortMap s with
      | none => .notFound "N/A"
      | some r => .found r

/-- Flat branch of `calculate_postage`: look up the class/type dict (a
`KeyError` is caught as "Rate not found"), round the weight up to a whole
ounce, clamp to at least 1, refuse tiers above `MAX_FLAT_OZ`, then
`.get(key, "N/A")`. -/
def flatRate (mc mt : String) (weight_oz : ℚ) : RateResult :=
  match flatTables mc mt with
  | none => .notFound "Rate not found"
  | some available =>
    let rw := rounded_ounces weight_oz
    let rw2 := if rw < 1 then 1 else rw
    if rw2 > (MAX_FLAT_OZ : ℤ) then
      .notFound "Rate not found (supported up to 12 oz)"
    else
      match available rw2.toNat with
      | none => .notFound "N/A"
      | some r => .found r

/-- Embeds `calculate_postage(weight_oz, shape, mail_class, mail_type,
sortation_level=None)`. Normalizes inputs, auto-switches Letter to Flat above
3.5 oz (discarding the sortation level), then performs the letter or flat
lookup; every `return` in the source pairs the rate with
`shape.capitalize()`. -/
def calculate_postage (weight_oz : ℚ) (shape mail_class mail_type : String)
    ( sortation_level : Option String := none) : RateResult × String :=
  let mt := pyStrip (pyLower mail_type)
  let mc := pyStrip mail_class
  let sh0 := pyStrip (pyLower shape)
  let sh := if sh0 = "letter" ∧ weight_oz > 7/2 then "flat" else sh0
  let sl := if sh0 = "letter" ∧ weight_oz > 7/2 then none else sortation_level
  ((if sh = "letter" then letterRate mc mt sl else flatRate mc mt weight_oz),
   pyCapitalize sh)

/-! ## General lemmas about the embedding -/

/-- Closed form of the extrapolation loop: after `k` iterations the running
value is the seed's 6 oz rate plus `k` steps. -/
theorem extendLoopVal_eq (tbl : ℕ → ℚ) (step : ℚ) (k : ℕ) :
    extendLoopVal tbl step k = tbl 6 + step * k := by
  induction k with
  | zero => simp [extendLoopVal]
  | succ k ih =>
    rw [extendLoopVal, ih]
    push_cast
    ring

/-- Every output of `to_cents` is an integer number of cents. -/
theorem to_cents_exists_int (x : ℚ) : ∃ n : ℤ, to_cents x = (n : ℚ) / 100 :=
  ⟨_, rfl⟩

/-- `to_cents` fixes integer numbers of cents. -/
theorem to_cents_int_div (n : ℤ) : to_cents ((n : ℚ) / 100) = (n : ℚ) / 100 := by
  unfold to_cents
  rcases le_or_lt 0 n with hn | hn
  · have h0 : (0 : ℚ) ≤ (n : ℚ) / 100 := by positivity
    rw [if_pos h0]
    have h1 : (n : ℚ) / 100 * 100 = (n : ℚ) := by field_simp
    have h2 : ⌊(1 / 2 : ℚ)⌋ = 0 := by
      rw [Int.floor_eq_zero_iff]
      constructor <;> norm_num
    rw [h1, add_comm, Int.floor_add_int, h2]
    push_cast
    ring
  · have h0 : ¬ (0 : ℚ) ≤ (n : ℚ) / 100 := by
      push_neg
      have : ((n : ℚ)) < 0 := by exact_mod_cast hn
      linarith
    rw [if_neg h0]
    have h1 : -((n : ℚ) / 100) * 100 = ((-n : ℤ) : ℚ) := by push_cast; ring
    have h2 : ⌊(1 / 2 : ℚ)⌋ = 0 := by
      rw [Int.floor_eq_zero_iff]
      constructor <;> norm_num
    rw [h1, add_comm, Int.floor_add_int, h2]
    push_cast
    ring

/-- Rounding to cents is idempotent. -/
theorem to_cents_idem (x : ℚ) : to_cents (to_cents x) = to_cents x := by
  obtain ⟨n, hn⟩ := to_cents_exists_int x
  rw [hn, to_cents_int_div]

/-- Any rate stored in a flat table reached through `flatTables` is already
rounded to cents. -/
theorem flatTables_round_trip (mc mt : String) (t : ℕ → Option ℚ) (oz : ℕ)
    (r : ℚ) (ht : flatTables mc mt = some t) (hr : t oz = some r) :
    to_cents r = r := by
  unfold flatTables at ht
  by_cases h1 : mc = "First-Class Mail"
  · rw [if_pos h1] at ht
    by_cases h2 : mt = "automation"
    · rw [if_pos h2] at ht
      injection ht with ht
      subst ht
      unfold FC_FLAT_EXTENDED at hr
      by_cases h3 : 1 ≤ oz ∧ oz ≤ MAX_FLAT_OZ
      · rw [if_pos h3] at hr
        injection hr with hr
        rw [← hr]
        exact to_cents_idem _
      · rw [if_neg h3] at hr
        exact Option.noConfusion hr
    · rw [if_neg h2] at ht
      exact Option.noConfusion ht
  · rw [if_neg h1] at ht
    by_cases h2 : mc = "Marketing Mail"
    · rw [if_pos h2] at ht
      by_cases h3 : mt = "automation"
      · rw [if_pos h3] at ht
        injection ht with ht
        subst ht
        unfold MM_FLAT_EXTENDED at hr
        by_cases h4 : 1 ≤ oz ∧ oz ≤ MAX_FLAT_OZ
        · rw [if_pos h4] at hr
          injection hr with hr
          rw [← hr]
          exact to_cents_idem _
        · rw [if_neg h4] at hr
          exact Option.noConfusion hr
      · rw [if_neg h3] at ht
        exact Option.noConfusion ht
    · rw [if_neg h2] at ht
      exact Option.noConfusion ht

/-- The second component of `calculate_postage` is the capitalized effective
shape string. -/
theorem calc_snd (w : ℚ) (shape mc mt : String) (sl : Option String) :
    (calculate_postage w shape mc mt sl).2 =
      pyCapitalize
        (if pyStrip (pyLower shape) = "letter" ∧ w > 7/2 then "flat"
         else pyStrip (pyLower shape)) := rfl

/-- When the normalized shape is "letter" and the weight does not exceed
3.5 oz, `calculate_postage` takes the letter branch. -/
theorem calc_fst_letter (w : ℚ) (shape mc mt : String) (sl : Option String)
    (hsh : pyStrip (pyLower shape) = "letter") (hw : w ≤ 7/2) :
    (calculate_postage w shape mc mt sl).1 =
      letterRate (pyStrip mc) (pyStrip (pyLower mt)) sl := by
  have hw2 : ¬ (w > 7/2) := not_lt.mpr hw
  simp [calculate_postage, hsh, hw2]

/-- Unless the normalized shape is "letter" with weight at most 3.5 oz,
`calculate_postage` takes the flat branch (also covering the Letter-to-Flat
auto-switch and every unrecognized shape string). -/
theorem calc_fst_flat (w : ℚ) (shape mc mt : String) (sl : Option String)
    (h : pyStrip (pyLower shape) = "letter" → 7/2 < w) :
    (calculate_postage w shape mc mt sl).1 =
      flatRate (pyStrip mc) (pyStrip (pyLower mt)) w := by
  by_cases hsh : pyStrip (pyLower shape) = "letter"
  · have hw := h hsh
    simp [calculate_postage, hsh, hw]
  · simp [calculate_postage, hsh]

/-- Concrete evaluation rule for `to_cents` on nonnegative inputs: if `n` is
the floor of `x * 100 + 1/2` then `to_cents x` is `n` cents. -/
theorem to_cents_eval (x : ℚ) (n : ℤ) (h0 : 0 ≤ x)
    (hl : (n : ℚ) ≤ x * 100 + 1/2) (hu : x * 100 + 1/2 < n + 1) :
    to_cents x = (n : ℚ) / 100 := by
  unfold to_cents
  rw [if_pos h0]
  congr 1
  exact_mod_cast Int.floor_eq_iff.mpr ⟨hl, hu⟩

/-- `to_cents` preserves nonnegativity. -/
theorem to_cents_nonneg (x : ℚ) (h0 : 0 ≤ x) : 0 ≤ to_cents x := by
  unfold to_cents
  rw [if_pos h0]
  have : (0 : ℤ) ≤ ⌊x * 100 + 1/2⌋ := Int.floor_nonneg.mpr (by linarith)
  positivity

/-- Adding an exact number of cents commutes with `to_cents` on nonnegative
inputs. -/
theorem to_cents_add_cents (x : ℚ) (c : ℤ) (hx : 0 ≤ x) (hc : 0 ≤ c) :
    to_cents (x + (c : ℚ) / 100) = to_cents x + (c : ℚ) / 100 := by
  unfold to_cents
  have hx2 : (0 : ℚ) ≤ x + (c : ℚ) / 100 := by
    have : (0 : ℚ) ≤ (c : ℚ) := by exact_mod_cast hc
    linarith
  rw [if_pos hx2, if_pos hx]
  have harg : (x + (c : ℚ) / 100) * 100 + 1/2 = (x * 100 + 1/2) + (c : ℚ) := by
    ring
  rw [harg, Int.floor_add_int]
  push_cast
  ring

/-- Below the seed maximum, the extended table is just the seed value rounded
to cents. -/
theorem extend_eval_le6 (tbl : ℕ → ℚ) (step : ℚ) (oz : ℕ) (h : oz ≤ 6) :
    extend_flat_rates_to_12oz tbl step oz = to_cents (tbl oz) := by
  simp [extend_flat_rates_to_12oz, out_dec_val, h]

/-- An unknown mail class or mail type misses the letter table entirely. -/
theorem LETTER_RATES_none (mc mt : String)
    (h : (mc ≠ "First-Class Mail" ∧ mc ≠ "Marketing Mail") ∨ mt ≠ "automation") :
    LETTER_RATES mc mt = none := by
  unfold LETTER_RATES
  split_ifs <;> tauto

/-- An unknown mail class or mail type misses the flat tables entirely. -/
theorem flatTables_none (mc mt : String)
    (h : (mc ≠ "First-Class Mail" ∧ mc ≠ "Marketing Mail") ∨ mt ≠ "automation") :
    flatTables mc mt = none := by
  unfold flatTables
  split_ifs <;> tauto

/-- A sortation level outside the three seeded keys misses every sortation
dict stored in `LETTER_RATES`. -/
theorem LETTER_RATES_unknown_sort (mc mt s : String) (f : String → Option ℚ)
    (hf : LETTER_RATES mc mt = some f) (h5 : s ≠ "5-Digit") (hA : s ≠ "AADC")
    (hM : s ≠ "Mixed AADC") : f s = none := by
  unfold LETTER_RATES at hf
  by_cases h1 : mc = "First-Class Mail"
  · rw [if_pos h1] at hf
    by_cases h2 : mt = "automation"
    · rw [if_pos h2] at hf
      injection hf with hf
      subst hf
      simp [h5, hA, hM]
    · rw [if_neg h2] at hf
      exact Option.noConfusion hf
  · rw [if_neg h1] at hf
    by_cases h2 : mc = "Marketing Mail"
    · rw [if_pos h2] at hf
      by_cases h3 : mt = "automation"
      · rw [if_pos h3] at hf
        injection hf with hf
        subst hf
        simp [h5, hA, hM]
      · rw [if_neg h3] at hf
        exact Option.noConfusion hf
    · rw [if_neg h2] at hf
      exact Option.noConfusion hf

/-- Above the seed maximum of 6 oz, the extended table holds the seed's 6 oz
rate plus one step per extra ounce, rounded to cents at the end. -/
theorem extend_above_six (tbl : ℕ → ℚ) (step : ℚ) (oz : ℕ) (h7 : 7 ≤ oz) :
    extend_flat_rates_to_12oz tbl step oz
      = to_cents (tbl 6 + step * ((oz : ℚ) - 6)) := by
  unfold extend_flat_rates_to_12oz out_dec_val
  rw [if_neg (by omega : ¬ oz ≤ 6), extendLoopVal_eq]
  have h6 : 6 ≤ oz := by omega
  rw [Nat.cast_sub h6]
  norm_num

/-- If `x` and `y` round to the same number of cents, `to_cents` agrees on
them. -/
theorem to_cents_eq_to_cents (x y : ℚ) (n : ℤ) (hx0 : 0 ≤ x) (hy0 : 0 ≤ y)
    (hx1 : (n : ℚ) ≤ x * 100 + 1/2) (hx2 : x * 100 + 1/2 < n + 1)
    (hy1 : (n : ℚ) ≤ y * 100 + 1/2) (hy2 : y * 100 + 1/2 < n + 1) :
    to_cents x = to_cents y := by
  rw [to_cents_eval x n hx0 hx1 hx2, to_cents_eval y n hy0 hy1 hy2]

/-- `to_cents` is monotone on nonnegative inputs. -/
theorem to_cents_mono (x y : ℚ) (hx : 0 ≤ x) (hxy : x ≤ y) :
    to_cents x ≤ to_cents y := by
  unfold to_cents
  rw [if_pos hx, if_pos (le_trans hx hxy)]
  have hf : ⌊x * 100 + 1/2⌋ ≤ ⌊y * 100 + 1/2⌋ :=
    Int.floor_le_floor (by linarith)
  have h100 : (0 : ℚ) < 100 := by norm_num
  exact (div_le_div_iff_of_pos_right h100).mpr (by exact_mod_cast hf)

/-- With a nonnegative seed rate and step, the extended table is
non-decreasing from the 6 oz tier upward. -/
theorem extend_mono_above (tbl : ℕ → ℚ) (step : ℚ) (h0 : 0 ≤ tbl 6)
    (hstep : 0 ≤ step) (oz : ℕ) (h6 : 6 ≤ oz) :
    extend_flat_rates_to_12oz tbl step oz
      ≤ extend_flat_rates_to_12oz tbl step (oz + 1) := by
  rcases eq_or_lt_of_le h6 with h | h
  · rw [← h, extend_eval_le6 tbl step 6 le_rfl,
      extend_above_six tbl step (6 + 1) (by norm_num)]
    apply to_cents_mono _ _ h0
    have hc : (((6 + 1 : ℕ)) : ℚ) - 6 = 1 := by push_cast; ring
    rw [hc, mul_one]
    linarith
  · have h7 : 7 ≤ oz := h
    rw [extend_above_six tbl step oz h7,
      extend_above_six tbl step (oz + 1) (by omega)]
    have hoz : (6 : ℚ) ≤ (oz : ℚ) := by exact_mod_cast h6
    have hbase : (0 : ℚ) ≤ step * ((oz : ℚ) - 6) :=
      mul_nonneg hstep (by linarith)
    apply to_cents_mono _ _ (by linarith)
    have hle : ((oz : ℚ)) - 6 ≤ ((oz + 1 : ℕ) : ℚ) - 6 := by push_cast; linarith
    have := mul_le_mul_of_nonneg_left hle hstep
    linarith

/-- Every tier 1..12 is present in the extended First-Class flat dict. -/
theorem FC_FLAT_EXTENDED_eval (oz : ℕ) (h1 : 1 ≤ oz) (h2 : oz ≤ 12) :
    FC_FLAT_EXTENDED oz
      = some (extend_flat_rates_to_12oz FC_FLAT_SEED_1_TO_6 FC_STEP oz) := by
  unfold FC_FLAT_EXTENDED
  rw [if_pos (⟨h1, h2⟩ : 1 ≤ oz ∧ oz ≤ MAX_FLAT_OZ)]

/-- Every tier 1..12 is present in the extended Marketing flat dict. -/
theorem MM_FLAT_EXTENDED_eval (oz : ℕ) (h1 : 1 ≤ oz) (h2 : oz ≤ 12) :
    MM_FLAT_EXTENDED oz
      = some (extend_flat_rates_to_12oz MM_FLAT_SEED_1_TO_6 MM_STEP oz) := by
  unfold MM_FLAT_EXTENDED
  rw [if_pos (⟨h1, h2⟩ : 1 ≤ oz ∧ oz ≤ MAX_FLAT_OZ)]

/-! ## Claims -/

/-- C1: for every request whose normalized shape is "letter" with
weight above 3.5 oz, `calculate_postage` returns effective shape "Flat" and
the supplied sortation level never influences the returned rate. -/
theorem letter_over_weight_forces_flat (w : ℚ) (shape mc mt : String)
    (sl sl' : Option String) (hsh : pyStrip (pyLower shape) = "letter")
    (hw : 7/2 < w) :
    (calculate_postage w shape mc mt sl).2 = "Flat" ∧
    (calculate_postage w shape mc mt sl).1 =
      (calculate_postage w shape mc mt sl').1 := by
  constructor
  · rw [calc_snd,
      if_pos (⟨hsh, hw⟩ : pyStrip (pyLower shape) = "letter" ∧ w > 7/2)]
    decide
  · rw [calc_fst_flat w shape mc mt sl (fun _ => hw),
      calc_fst_flat w shape mc mt sl' (fun _ => hw)]

/-- Witness for C1 at weight 4 oz with two different sortation levels. -/
theorem letter_over_weight_forces_flat_witness :
    (calculate_postage 4 "Letter" "First-Class Mail" "automation"
        (some "5-Digit")).2 = "Flat" ∧
    (calculate_postage 4 "Letter" "First-Class Mail" "automation"
        (some "5-Digit")).1 =
      (calculate_postage 4 "Letter" "First-Class Mail" "automation"
        (some "AADC")).1 :=
  letter_over_weight_forces_flat 4 "Letter" "First-Class Mail" "automation"
    (some "5-Digit") (some "AADC") (by decide) (by norm_num)

/-- C2: for every seed table with maximum tier 6 oz and step `S`, the table
built by `extend_flat_rates_to_12oz` assigns to each integer ounce 7..12 the
rate `R + S * (oz - 6)` where `R` is the seed rate at 6 oz, rounded to two
decimals half-up. -/
theorem extend_closed_form (tbl : ℕ → ℚ) (step : ℚ) (oz : ℕ)
    (h7 : 7 ≤ oz) (_h12 : oz ≤ 12) :
    extend_flat_rates_to_12oz tbl step oz
      = to_cents (tbl 6 + step * ((oz : ℚ) - 6)) :=
  extend_above_six tbl step oz h7

/-- Witness for C2 on the First-Class seed at 12 oz. -/
theorem extend_closed_form_witness :
    extend_flat_rates_to_12oz FC_FLAT_SEED_1_TO_6 FC_STEP 12
      = to_cents (FC_FLAT_SEED_1_TO_6 6 + FC_STEP * (((12 : ℕ) : ℚ) - 6)) :=
  extend_closed_form FC_FLAT_SEED_1_TO_6 FC_STEP 12 (by norm_num) (by norm_num)

/-- C3 counterexample: the seeded letter rate 0.593 is surfaced by
`calculate_postage` but does not round-trip through 2-decimal half-up
rounding, refuting the claim that every surfaced rate does. -/
theorem letter_rate_breaks_round_trip :
    (calculate_postage (7/2) "Letter" "First-Class Mail" "automation"
        (some "5-Digit")).1 = RateResult.found (593/1000) ∧
    ¬ to_cents (593/1000) = (593/1000 : ℚ) := by
  constructor
  · rw [calc_fst_letter _ _ _ _ _ (by decide) (by norm_num)]
    have h2 : pyStrip (pyLower "automation") = "automation" := by decide
    have h3 : pyStrip "First-Class Mail" = "First-Class Mail" := by decide
    rw [h2, h3]
    norm_num [letterRate, LETTER_RATES]
  · rw [to_cents_eval _ 59 (by norm_num) (by norm_num) (by norm_num)]
    norm_num

/-- C3 (amended): every flat-tier rate surfaced by `calculate_postage`
round-trips through 2-decimal half-up rounding, and the rounding function
maps 2.005 to 2.01; the seeded letter rates keep three decimals and are the
exception. -/
theorem flat_rates_round_trip :
    (∀ (w : ℚ) (shape mc mt : String) (sl : Option String) (r : ℚ),
      (pyStrip (pyLower shape) = "letter" → 7/2 < w) →
      (calculate_postage w shape mc mt sl).1 = RateResult.found r →
      to_cents r = r) ∧
    to_cents (2005/1000) = 201/100 := by
  constructor
  · intro w shape mc mt sl r h hr
    rw [calc_fst_flat w shape mc mt sl h] at hr
    unfold flatRate at hr
    rcases hft : flatTables (pyStrip mc) (pyStrip (pyLower mt)) with _ | available
    · simp only [hft] at hr
      exact RateResult.noConfusion hr
    · simp only [hft] at hr
      by_cases hbig :
          (if rounded_ounces w < 1 then 1 else rounded_ounces w)
            > (MAX_FLAT_OZ : ℤ)
      · rw [if_pos hbig] at hr
        exact RateResult.noConfusion hr
      · rw [if_neg hbig] at hr
        rcases hav : available
            (if rounded_ounces w < 1 then 1 else rounded_ounces w).toNat
          with _ | r2
        · rw [hav] at hr
          exact RateResult.noConfusion hr
        · rw [hav] at hr
          injection hr with hr
          rw [← hr]
          exact flatTables_round_trip _ _ _ _ _ hft hav
  · exact to_cents_eval _ 201 (by norm_num) (by norm_num) (by norm_num)

/-- Witness for C3 (amended): the 4 oz First-Class flat rate 2.05 is surfaced
and round-trips. -/
theorem flat_rates_round_trip_witness : to_cents (41/20) = 41/20 :=
  flat_rates_round_trip.1 4 "Flat" "First-Class Mail" "automation" none
    (41/20)
    (by intro hl; exact absurd hl (by decide))
    (by
      rw [calc_fst_flat _ _ _ _ _ (by intro hl; exact absurd hl (by decide))]
      have h2 : pyStrip (pyLower "automation") = "automation" := by decide
      have h3 : pyStrip "First-Class Mail" = "First-Class Mail" := by decide
      rw [h2, h3]
      have hs : FC_FLAT_SEED_1_TO_6 4 = 2045/1000 := by
        norm_num [FC_FLAT_SEED_1_TO_6]
      have e4 : extend_flat_rates_to_12oz FC_FLAT_SEED_1_TO_6 FC_STEP 4
          = 41/20 := by
        rw [extend_eval_le6 _ _ 4 (by norm_num), hs,
          to_cents_eval (2045/1000) 205 (by norm_num) (by norm_num)
            (by norm_num)]
        norm_num
      norm_num [flatRate, flatTables, FC_FLAT_EXTENDED, MAX_FLAT_OZ,
        rounded_ounces]
      exact e4)

/-- C6 counterexample: shape "Digest" at 2 oz (≤ 3.5 oz) is not treated as a
Letter: the result is the First-Class flat 2 oz rate with effective shape
"Digest", differing from the same request with shape "Letter". -/
theorem digest_shape_not_letter :
    calculate_postage 2 "Digest" "First-Class Mail" "automation"
        (some "5-Digit") = (RateResult.found (151/100), "Digest") ∧
    calculate_postage 2 "Letter" "First-Class Mail" "automation"
        (some "5-Digit") = (RateResult.found (593/1000), "Letter") ∧
    calculate_postage 2 "Digest" "First-Class Mail" "automation"
        (some "5-Digit")
      ≠ calculate_postage 2 "Letter" "First-Class Mail" "automation"
        (some "5-Digit") := by
  have h1 : pyStrip (pyLower "Digest") = "digest" := by decide
  have h2 : pyStrip (pyLower "automation") = "automation" := by decide
  have h3 : pyStrip "First-Class Mail" = "First-Class Mail" := by decide
  have h4 : pyCapitalize "digest" = "Digest" := by decide
  have h5 : pyStrip (pyLower "Letter") = "letter" := by decide
  have h6 : pyCapitalize "letter" = "Letter" := by decide
  have e2 : extend_flat_rates_to_12oz FC_FLAT_SEED_1_TO_6 FC_STEP 2
      = 151/100 := by
    rw [extend_eval_le6 _ _ 2 (by norm_num)]
    norm_num [FC_FLAT_SEED_1_TO_6]
    exact to_cents_eval _ 151 (by norm_num) (by norm_num) (by norm_num)
  have hd : calculate_postage 2 "Digest" "First-Class Mail" "automation"
      (some "5-Digit") = (RateResult.found (151/100), "Digest") := by
    norm_num [calculate_postage, flatRate, flatTables, FC_FLAT_EXTENDED,
      MAX_FLAT_OZ, rounded_ounces, h1, h2, h3, h4]
    rw [if_neg (by decide : ¬ ("digest" = "letter"))]
    exact congrArg RateResult.found e2
  have hl : calculate_postage 2 "Letter" "First-Class Mail" "automation"
      (some "5-Digit") = (RateResult.found (593/1000), "Letter") := by
    norm_num [calculate_postage, letterRate, LETTER_RATES, h5, h2, h3, h6]
  refine ⟨hd, hl, ?_⟩
  rw [hd, hl]
  simp

/-- C6 (amended): an unrecognized shape string is routed to the flat lookup
regardless of weight — its rate equals the rate of the same request with
shape "Flat", and the effective shape is the capitalized normalized input,
not "Letter" or "Flat". -/
theorem unknown_shape_goes_flat (w : ℚ) (shape mc mt : String)
    (sl : Option String) (hsh : pyStrip (pyLower shape) ≠ "letter") :
    (calculate_postage w shape mc mt sl).1 =
      (calculate_postage w "Flat" mc mt sl).1 ∧
    (calculate_postage w shape mc mt sl).2 =
      pyCapitalize (pyStrip (pyLower shape)) := by
  constructor
  · rw [calc_fst_flat w shape mc mt sl (fun hl => absurd hl hsh),
      calc_fst_flat w "Flat" mc mt sl (fun hl => absurd hl (by decide))]
  · rw [calc_snd, if_neg (fun hc => hsh (hc.1))]

/-- Witness for C6 (amended) at shape "Digest", weight 2 oz. -/
theorem unknown_shape_goes_flat_witness :
    (calculate_postage 2 "Digest" "First-Class Mail" "automation" none).1 =
      (calculate_postage 2 "Flat" "First-Class Mail" "automation" none).1 ∧
    (calculate_postage 2 "Digest" "First-Class Mail" "automation" none).2 =
      pyCapitalize (pyStrip (pyLower "Digest")) :=
  unknown_shape_goes_flat 2 "Digest" "First-Class Mail" "automation" none
    (by decide)

/-- C9: the concrete scenario weight 3.5 oz, shape Letter, First-Class Mail,
automation, 5-Digit returns exactly the seeded rate 0.593 with effective
shape "Letter". -/
theorem fc_letter_5digit_scenario :
    calculate_postage (7/2) "Letter" "First-Class Mail" "automation"
        (some "5-Digit") = (RateResult.found (593/1000), "Letter") := by
  have h1 : pyStrip (pyLower "Letter") = "letter" := by decide
  have h2 : pyStrip (pyLower "automation") = "automation" := by decide
  have h3 : pyStrip "First-Class Mail" = "First-Class Mail" := by decide
  have h4 : pyCapitalize "letter" = "Letter" := by decide
  norm_num [calculate_postage, letterRate, LETTER_RATES, h1, h2, h3, h4]

/-- C4: every flat-shape request with a known mail class and type rounds the
weight up with `ceil`; above 12 oz it returns the ceiling-exceeded NotFound
message, otherwise it looks up exactly the ceiled integer tier. -/
theorem flat_ceiling_lookup (w : ℚ) (shape mc mt : String) (sl : Option String)
    (hsh : pyStrip (pyLower shape) = "flat")
    (hmc : pyStrip mc = "First-Class Mail" ∨ pyStrip mc = "Marketing Mail")
    (hmt : pyStrip (pyLower mt) = "automation") (hw : 0 < w) :
    (12 < rounded_ounces w →
      (calculate_postage w shape mc mt sl).1 =
        RateResult.notFound "Rate not found (supported up to 12 oz)") ∧
    (rounded_ounces w ≤ 12 →
      ∃ t r, flatTables (pyStrip mc) (pyStrip (pyLower mt)) = some t ∧
        t (rounded_ounces w).toNat = some r ∧
        (calculate_postage w shape mc mt sl).1 = RateResult.found r) := by
  have hpath : (calculate_postage w shape mc mt sl).1 =
      flatRate (pyStrip mc) (pyStrip (pyLower mt)) w :=
    calc_fst_flat w shape mc mt sl
      (by intro hl; rw [hsh] at hl; exact absurd hl (by decide))
  have hceil1 : 1 ≤ rounded_ounces w := by
    have hpos := Int.ceil_pos.mpr hw
    have heq : rounded_ounces w = ⌈w⌉ := rfl
    omega
  have hclamp : ¬ (rounded_ounces w < 1) := by omega
  obtain ⟨tb, htb, hall⟩ :
      ∃ tb, flatTables (pyStrip mc) (pyStrip (pyLower mt)) = some tb ∧
        ∀ oz : ℕ, 1 ≤ oz → oz ≤ 12 → ∃ r, tb oz = some r := by
    rcases hmc with hc | hc
    · refine ⟨FC_FLAT_EXTENDED, by rw [hc, hmt]; simp [flatTables], ?_⟩
      intro oz h1 h2
      exact ⟨_, FC_FLAT_EXTENDED_eval oz h1 h2⟩
    · refine ⟨MM_FLAT_EXTENDED, by rw [hc, hmt]; simp [flatTables], ?_⟩
      intro oz h1 h2
      exact ⟨_, MM_FLAT_EXTENDED_eval oz h1 h2⟩
  constructor
  · intro hbig
    rw [hpath]
    unfold flatRate
    simp only [htb, MAX_FLAT_OZ, Nat.cast_ofNat]
    rw [if_neg hclamp, if_pos (show rounded_ounces w > (12 : ℤ) from hbig)]
  · intro hle
    obtain ⟨r, hrr⟩ := hall (rounded_ounces w).toNat (by omega) (by omega)
    refine ⟨tb, r, htb, hrr, ?_⟩
    rw [hpath]
    unfold flatRate
    simp only [htb, MAX_FLAT_OZ, Nat.cast_ofNat]
    rw [if_neg hclamp,
      if_neg (show ¬ (rounded_ounces w > (12 : ℤ)) by omega), hrr]

/-- Witness for C4: weight 13 oz, shape Flat, First-Class automation yields
the ceiling-exceeded NotFound message. -/
theorem flat_ceiling_lookup_witness :
    (calculate_postage 13 "Flat" "First-Class Mail" "automation" none).1 =
      RateResult.notFound "Rate not found (supported up to 12 oz)" :=
  (flat_ceiling_lookup 13 "Flat" "First-Class Mail" "automation" none
    (by decide) (Or.inl (by decide)) (by decide) (by norm_num)).1
    (by norm_num [rounded_ounces])

/-- C5: whenever a lookup key is absent (unknown mail class, unknown mail
type, absent or unknown sortation level, or a weight tier above 12 oz), the
rate component of `calculate_postage` is a not-found value; the embedding is
total, so no exception escapes. -/
theorem lookup_miss_returns_not_found (w : ℚ) (shape mc mt : String)
    (sl : Option String)
    (h : (pyStrip mc ≠ "First-Class Mail" ∧ pyStrip mc ≠ "Marketing Mail")
       ∨ pyStrip (pyLower mt) ≠ "automation"
       ∨ (pyStrip (pyLower shape) = "letter" ∧ w ≤ 7/2 ∧
           ∀ s, sl = some s →
             s ≠ "5-Digit" ∧ s ≠ "AADC" ∧ s ≠ "Mixed AADC")
       ∨ (12 < rounded_ounces w ∧
           ¬ (pyStrip (pyLower shape) = "letter" ∧ w ≤ 7/2))) :
    ((calculate_postage w shape mc mt sl).1).isNotFound = true := by
  by_cases hpath : pyStrip (pyLower shape) = "letter" ∧ w ≤ 7/2
  · rw [calc_fst_letter w shape mc mt sl hpath.1 hpath.2]
    rcases h with ⟨hm1, hm2⟩ | hmt | ⟨-, -, hsl⟩ | ⟨-, hcon⟩
    · have hn := LETTER_RATES_none (pyStrip mc) (pyStrip (pyLower mt))
        (Or.inl ⟨hm1, hm2⟩)
      simp [letterRate, hn, RateResult.isNotFound]
    · have hn := LETTER_RATES_none (pyStrip mc) (pyStrip (pyLower mt))
        (Or.inr hmt)
      simp [letterRate, hn, RateResult.isNotFound]
    · rcases hL : LETTER_RATES (pyStrip mc) (pyStrip (pyLower mt)) with _ | f
      · simp [letterRate, hL, RateResult.isNotFound]
      · rcases sl with _ | s
        · simp [letterRate, hL, RateResult.isNotFound]
        · have hnone := LETTER_RATES_unknown_sort _ _ s f hL
            (hsl s rfl).1 (hsl s rfl).2.1 (hsl s rfl).2.2
          simp [letterRate, hL, hnone, RateResult.isNotFound]
    · exact absurd hpath hcon
  · have hgt : pyStrip (pyLower shape) = "letter" → 7/2 < w := by
      intro hl
      by_contra hno
      exact hpath ⟨hl, le_of_not_lt hno⟩
    rw [calc_fst_flat w shape mc mt sl hgt]
    rcases h with ⟨hm1, hm2⟩ | hmt | ⟨h1, h2, -⟩ | ⟨hbig, -⟩
    · have hn := flatTables_none (pyStrip mc) (pyStrip (pyLower mt))
        (Or.inl ⟨hm1, hm2⟩)
      simp [flatRate, hn, RateResult.isNotFound]
    · have hn := flatTables_none (pyStrip mc) (pyStrip (pyLower mt))
        (Or.inr hmt)
      simp [flatRate, hn, RateResult.isNotFound]
    · exact absurd ⟨h1, h2⟩ hpath
    · rcases hft : flatTables (pyStrip mc) (pyStrip (pyLower mt))
        with _ | available
      · simp [flatRate, hft, RateResult.isNotFound]
      · unfold flatRate
        simp only [hft, MAX_FLAT_OZ, Nat.cast_ofNat]
        rw [if_neg (by omega : ¬ (rounded_ounces w < 1)),
          if_pos (show rounded_ounces w > (12 : ℤ) from hbig)]
        rfl

/-- Witness for C5: unknown mail class "Parcel Select" yields a not-found
rate. -/
theorem lookup_miss_returns_not_found_witness :
    ((calculate_postage 2 "Letter" "Parcel Select" "automation"
        (some "5-Digit")).1).isNotFound = true :=
  lookup_miss_returns_not_found 2 "Letter" "Parcel Select" "automation"
    (some "5-Digit") (Or.inl ⟨by decide, by decide⟩)

/-- C7: re-running the extrapolation on an already-extended table leaves
every tier 1..12 unchanged, for both seed tables with their steps. -/
theorem extrapolation_idempotent :
    ∀ oz : ℕ, oz < 13 → 1 ≤ oz →
      extend_flat_rates_to_12oz
          (extend_flat_rates_to_12oz FC_FLAT_SEED_1_TO_6 FC_STEP) FC_STEP oz
        = extend_flat_rates_to_12oz FC_FLAT_SEED_1_TO_6 FC_STEP oz ∧
      extend_flat_rates_to_12oz
          (extend_flat_rates_to_12oz MM_FLAT_SEED_1_TO_6 MM_STEP) MM_STEP oz
        = extend_flat_rates_to_12oz MM_FLAT_SEED_1_TO_6 MM_STEP oz := by
  intro oz h13 h1
  constructor
  · by_cases h6 : oz ≤ 6
    · rw [extend_eval_le6
          (extend_flat_rates_to_12oz FC_FLAT_SEED_1_TO_6 FC_STEP)
          FC_STEP oz h6,
        extend_eval_le6 FC_FLAT_SEED_1_TO_6 FC_STEP oz h6]
      exact to_cents_idem _
    · have h7 : 7 ≤ oz := by omega
      have hs6 : FC_FLAT_SEED_1_TO_6 6 = 2305/1000 := by
        norm_num [FC_FLAT_SEED_1_TO_6, CORRECT_FC_6OZ]
      rw [extend_above_six _ _ oz h7, extend_above_six _ _ oz h7,
        extend_eval_le6 FC_FLAT_SEED_1_TO_6 FC_STEP 6 (by norm_num), hs6,
        to_cents_eval (2305/1000) 231 (by norm_num) (by norm_num)
          (by norm_num)]
      interval_cases oz
      · exact to_cents_eq_to_cents _ _ 259 (by norm_num [FC_STEP])
          (by norm_num [FC_STEP]) (by norm_num [FC_STEP])
          (by norm_num [FC_STEP]) (by norm_num [FC_STEP])
          (by norm_num [FC_STEP])
      · exact to_cents_eq_to_cents _ _ 287 (by norm_num [FC_STEP])
          (by norm_num [FC_STEP]) (by norm_num [FC_STEP])
          (by norm_num [FC_STEP]) (by norm_num [FC_STEP])
          (by norm_num [FC_STEP])
      · exact to_cents_eq_to_cents _ _ 315 (by norm_num [FC_STEP])
          (by norm_num [FC_STEP]) (by norm_num [FC_STEP])
          (by norm_num [FC_STEP]) (by norm_num [FC_STEP])
          (by norm_num [FC_STEP])
      · exact to_cents_eq_to_cents _ _ 343 (by norm_num [FC_STEP])
          (by norm_num [FC_STEP]) (by norm_num [FC_STEP])
          (by norm_num [FC_STEP]) (by norm_num [FC_STEP])
          (by norm_num [FC_STEP])
      · exact to_cents_eq_to_cents _ _ 371 (by norm_num [FC_STEP])
          (by norm_num [FC_STEP]) (by norm_num [FC_STEP])
          (by norm_num [FC_STEP]) (by norm_num [FC_STEP])
          (by norm_num [FC_STEP])
      · exact to_cents_eq_to_cents _ _ 399 (by norm_num [FC_STEP])
          (by norm_num [FC_STEP]) (by norm_num [FC_STEP])
          (by norm_num [FC_STEP]) (by norm_num [FC_STEP])
          (by norm_num [FC_STEP])
  · by_cases h6 : oz ≤ 6
    · rw [extend_eval_le6
          (extend_flat_rates_to_12oz MM_FLAT_SEED_1_TO_6 MM_STEP)
          MM_STEP oz h6,
        extend_eval_le6 MM_FLAT_SEED_1_TO_6 MM_STEP oz h6]
      exact to_cents_idem _
    · have h7 : 7 ≤ oz := by omega
      have hs6 : MM_FLAT_SEED_1_TO_6 6 = 1119/1000 := by
        norm_num [MM_FLAT_SEED_1_TO_6]
      rw [extend_above_six _ _ oz h7, extend_above_six _ _ oz h7,
        extend_eval_le6 MM_FLAT_SEED_1_TO_6 MM_STEP 6 (by norm_num), hs6,
        to_cents_eval (1119/1000) 112 (by norm_num) (by norm_num)
          (by norm_num)]
      interval_cases oz
      · exact to_cents_eq_to_cents _ _ 117 (by norm_num [MM_STEP])
          (by norm_num [MM_STEP]) (by norm_num [MM_STEP])
          (by norm_num [MM_STEP]) (by norm_num [MM_STEP])
          (by norm_num [MM_STEP])
      · exact to_cents_eq_to_cents _ _ 121 (by norm_num [MM_STEP])
          (by norm_num [MM_STEP]) (by norm_num [MM_STEP])
          (by norm_num [MM_STEP]) (by norm_num [MM_STEP])
          (by norm_num [MM_STEP])
      · exact to_cents_eq_to_cents _ _ 126 (by norm_num [MM_STEP])
          (by norm_num [MM_STEP]) (by norm_num [MM_STEP])
          (by norm_num [MM_STEP]) (by norm_num [MM_STEP])
          (by norm_num [MM_STEP])
      · exact to_cents_eq_to_cents _ _ 130 (by norm_num [MM_STEP])
          (by norm_num [MM_STEP]) (by norm_num [MM_STEP])
          (by norm_num [MM_STEP]) (by norm_num [MM_STEP])
          (by norm_num [MM_STEP])
      · exact to_cents_eq_to_cents _ _ 135 (by norm_num [MM_STEP])
          (by norm_num [MM_STEP]) (by norm_num [MM_STEP])
          (by norm_num [MM_STEP]) (by norm_num [MM_STEP])
          (by norm_num [MM_STEP])
      · exact to_cents_eq_to_cents _ _ 140 (by norm_num [MM_STEP])
          (by norm_num [MM_STEP]) (by norm_num [MM_STEP])
          (by norm_num [MM_STEP]) (by norm_num [MM_STEP])
          (by norm_num [MM_STEP])

/-- Witness for C7 at the 12 oz tier. -/
theorem extrapolation_idempotent_witness :
    extend_flat_rates_to_12oz
        (extend_flat_rates_to_12oz FC_FLAT_SEED_1_TO_6 FC_STEP) FC_STEP 12
      = extend_flat_rates_to_12oz FC_FLAT_SEED_1_TO_6 FC_STEP 12 ∧
    extend_flat_rates_to_12oz
        (extend_flat_rates_to_12oz MM_FLAT_SEED_1_TO_6 MM_STEP) MM_STEP 12
      = extend_flat_rates_to_12oz MM_FLAT_SEED_1_TO_6 MM_STEP 12 :=
  extrapolation_idempotent 12 (by norm_num) (by norm_num)

/-- C8: for each mail class, the extended flat rate is non-decreasing in the
tier from the seed maximum 6 oz through 12 oz. -/
theorem extended_rates_monotone :
    ∀ oz : ℕ, oz < 12 → 6 ≤ oz →
      extend_flat_rates_to_12oz FC_FLAT_SEED_1_TO_6 FC_STEP oz
        ≤ extend_flat_rates_to_12oz FC_FLAT_SEED_1_TO_6 FC_STEP (oz + 1) ∧
      extend_flat_rates_to_12oz MM_FLAT_SEED_1_TO_6 MM_STEP oz
        ≤ extend_flat_rates_to_12oz MM_FLAT_SEED_1_TO_6 MM_STEP (oz + 1) := by
  intro oz _ h6
  constructor
  · exact extend_mono_above _ _
      (by norm_num [FC_FLAT_SEED_1_TO_6, CORRECT_FC_6OZ])
      (by norm_num [FC_STEP]) oz h6
  · exact extend_mono_above _ _
      (by norm_num [MM_FLAT_SEED_1_TO_6])
      (by norm_num [MM_STEP]) oz h6

/-- Witness for C8 at the 6 oz boundary. -/
theorem extended_rates_monotone_witness :
    extend_flat_rates_to_12oz FC_FLAT_SEED_1_TO_6 FC_STEP 6
      ≤ extend_flat_rates_to_12oz FC_FLAT_SEED_1_TO_6 FC_STEP (6 + 1) ∧
    extend_flat_rates_to_12oz MM_FLAT_SEED_1_TO_6 MM_STEP 6
      ≤ extend_flat_rates_to_12oz MM_FLAT_SEED_1_TO_6 MM_STEP (6 + 1) :=
  extended_rates_monotone 6 (by norm_num) (by norm_num)

/-- C10: a positive weight strictly below 1 oz on the flat path with a known
class and type is billed at the 1 oz tier, never not-found. -/
theorem subounce_flat_billed_at_one_oz (w : ℚ) (shape mc mt : String)
    (sl : Option String) (hsh : pyStrip (pyLower shape) = "flat")
    (hmc : pyStrip mc = "First-Class Mail" ∨ pyStrip mc = "Marketing Mail")
    (hmt : pyStrip (pyLower mt) = "automation")
    (h0 : 0 < w) (h1 : w < 1) :
    ∃ t r, flatTables (pyStrip mc) (pyStrip (pyLower mt)) = some t ∧
      t 1 = some r ∧
      (calculate_postage w shape mc mt sl).1 = RateResult.found r := by
  have hceil : rounded_ounces w = 1 := by
    unfold rounded_ounces
    rw [Int.ceil_eq_iff]
    constructor
    · push_cast
      linarith
    · push_cast
      linarith
  have hpath : (calculate_postage w shape mc mt sl).1 =
      flatRate (pyStrip mc) (pyStrip (pyLower mt)) w :=
    calc_fst_flat w shape mc mt sl
      (by intro hl; rw [hsh] at hl; exact absurd hl (by decide))
  obtain ⟨tb, htb, r, hr⟩ :
      ∃ tb, flatTables (pyStrip mc) (pyStrip (pyLower mt)) = some tb ∧
        ∃ r, tb 1 = some r := by
    rcases hmc with hc | hc
    · exact ⟨FC_FLAT_EXTENDED, by rw [hc, hmt]; simp [flatTables],
        _, FC_FLAT_EXTENDED_eval 1 (by norm_num) (by norm_num)⟩
    · exact ⟨MM_FLAT_EXTENDED, by rw [hc, hmt]; simp [flatTables],
        _, MM_FLAT_EXTENDED_eval 1 (by norm_num) (by norm_num)⟩
  refine ⟨tb, r, htb, hr, ?_⟩
  rw [hpath]
  unfold flatRate
  simp only [htb, MAX_FLAT_OZ, Nat.cast_ofNat, hceil]
  rw [if_neg (by norm_num : ¬ ((1 : ℤ) < 1)),
    if_neg (by norm_num : ¬ ((1 : ℤ) > 12))]
  rw [show Int.toNat 1 = 1 from rfl, hr]

/-- Witness for C10 at weight 0.5 oz, First-Class flats. -/
theorem subounce_flat_billed_at_one_oz_witness :
    ∃ t r, flatTables (pyStrip "First-Class Mail")
        (pyStrip (pyLower "Automation")) = some t ∧
      t 1 = some r ∧
      (calculate_postage (1/2) "Flat" "First-Class Mail" "Automation"
          none).1 = RateResult.found r :=
  subounce_flat_billed_at_one_oz (1/2) "Flat" "First-Class Mail" "Automation"
    none (by decide) (Or.inl (by decide)) (by decide) (by norm_num)
    (by norm_num)

end PostageCalculator
